import Mathlib

/-!
Verification of the shellfirm MCP command gate.

The definitions below are a shallow embedding of the TypeScript sources
under src/mcp/src (command-interceptor.ts, logger.ts / browser-challenge,
types.ts) and of the MCP server variants in src/unnamed/part_007.
Stateful code (the browser challenge session) is modelled by explicit
state passing; the external calls awaited by the interceptor (the WASM
validation engine, the browser challenge, process spawning) are supplied
as oracle arguments.  The Rust validation engine itself (shellfirm_core)
is not part of this repository snapshot, only its WASM glue and callers
are; where a claim depends on it, the decision function is modelled from
the specification and marked as such.
-/

namespace Shellfirm

/-- A matched check as surfaced across the WASM boundary and consumed by
the interceptor (shellfirm-wasm.ts, interface Check / the projection used
in command-interceptor.ts lines 84-88): id, severity and description. -/
structure CheckMatch where
  id : String
  severity : String
  description : String
deriving DecidableEq, Repr

/-- Result of the validation engine (shellfirm-wasm.ts, interface
ValidationResult): the matched checks plus the two verdict flags.  The
source field is named matches; that word is a keyword in Lean, so the
field is called matchList here. -/
structure ValidationResult where
  matchList : List CheckMatch
  should_challenge : Bool
  should_deny : Bool
deriving DecidableEq, Repr

/-- Options passed to the validation engine (shellfirm-wasm.ts, interface
ValidationOptions). -/
structure ValidationOptions where
  allowed_severities : List String
  deny_pattern_ids : List String
deriving DecidableEq, Repr

/-- Challenge types accepted by the MCP layer (types.ts line 14). -/
inductive ChallengeType where
  | confirm
  | math
  | word
  | block
deriving DecidableEq, Repr

/-- An environment is a list of key/value bindings.  JavaScript object
spread semantics: in a list read left to right, later bindings win on key
collision (see envLookup). -/
abbrev EnvMap := List (String × String)

/-- Lookup in an EnvMap giving precedence to later bindings, the
semantics of JS object literals built by spread. -/
def envLookup : EnvMap → String → Option String
  | [], _ => none
  | (k, v) :: rest, key =>
    match envLookup rest key with
    | some v2 => some v2
    | none => if k = key then some v else none

/-- Child environment built by CommandInterceptor.executeCommand
(command-interceptor.ts lines 167-177): when propagateProcessEnv is
truthy, options.env is the spread of the (defined-value) process
environment with the explicit environment on top; otherwise only the
explicit environment is used.  Appending explicitEnv after processEnv
realises the spread precedence of line 173. -/
def executeCommandEnv (processEnv explicitEnv : EnvMap)
    (propagateProcessEnv : Bool) : EnvMap :=
  if propagateProcessEnv then processEnv ++ explicitEnv else explicitEnv

/-- JavaScript truthiness of an array value: every object, the empty
array included, is truthy.  The commander-variant server
(ShellfirmMcpServer.handleSecureExecution, part_007 lines 441-449)
passes its string[] propagateEnvVarNames as the sixth argument of
CommandInterceptor.interceptCommand, whose sixth parameter is the
boolean propagateProcessEnv consumed by the test on line 168; at run
time the array is therefore evaluated for truthiness. -/
def jsArrayTruthy (_names : List String) : Bool := true

/-- Child environment produced through the MCP secure-execution path of
the commander variant: the env allow-list parsed from --propagate-env is
forwarded into the boolean parameter position of executeCommand. -/
def mcpChildEnv (propagateEnvVarNames : List String)
    (processEnv explicitEnv : EnvMap) : EnvMap :=
  executeCommandEnv processEnv explicitEnv (jsArrayTruthy propagateEnvVarNames)

/-- Outcome of the awaited execAsync call in executeCommand: either the
promise resolves with stdout/stderr, or it rejects (spawn failure or a
nonzero exit status) with an error message. -/
inductive ExecOutcome where
  | success (stdout stderr : String)
  | failure (message : String)
deriving DecidableEq, Repr

/-- The result record returned by interceptCommand / executeCommand
(command-interceptor.ts lines 24-29). -/
structure CmdResult where
  allowed : Bool
  output : Option String
  error : Option String
  message : String
deriving DecidableEq, Repr

/-- Result record built by CommandInterceptor.executeCommand
(command-interceptor.ts lines 182-201).  On resolution: allowed with the
streams, error set only for a non-empty stderr (the JS expression
stderr ? stderr : undefined treats the empty string as falsy).  On
rejection: still allowed, empty output, the error message surfaced. -/
def executeCommandResult : ExecOutcome → CmdResult
  | .success stdout stderr =>
    { allowed := true
      output := some stdout
      error := if stderr = "" then none else some stderr
      message := "Command executed successfully" }
  | .failure msg =>
    { allowed := true
      output := some ""
      error := some msg
      message := "Command was allowed but execution failed" }

/-- Joined descriptions of the matched checks, as built on lines 55 and
64 of command-interceptor.ts. -/
def matchDescriptions (v : ValidationResult) : String :=
  String.intercalate ", " (v.matchList.map (fun c => c.description))

/-- Outcome of the awaited BrowserChallenge.showChallenge call: the user
approved, the user denied (or the challenge failed) with an optional
error text, or the challenge system threw. -/
inductive ChallengeVerdict where
  | approved
  | denied (error : Option String)
  | threw (msg : String)
deriving DecidableEq, Repr

/-- Result of one interceptCommand run together with the observable
effects relevant to the claims: whether a browser challenge session was
opened and whether executeCommand (process spawning) was reached. -/
structure InterceptOutcome where
  result : CmdResult
  challengeOpened : Bool
  executed : Bool
deriving DecidableEq, Repr

/-- Control flow of CommandInterceptor.interceptCommand
(command-interceptor.ts lines 17-129).  The awaited external calls are
supplied as arguments: validation is the outcome of
validateSplitCommandWithOptions (Except.error models a thrown engine
error caught by the outer catch of lines 121-128), challenge the outcome
of BrowserChallenge.showChallenge, execOutcome the outcome of execAsync.
Branches in source order: no challenge -> execute; deny -> policy
denial; block challenge type -> immediate block; otherwise open the
challenge and execute or deny on its verdict. -/
def interceptCommand (validation : Except String ValidationResult)
    (challengeType : ChallengeType) (challenge : ChallengeVerdict)
    (execOutcome : ExecOutcome) : InterceptOutcome :=
  match validation with
  | .error msg =>
    { result :=
        { allowed := false
          output := none
          error := some "Interception error"
          message := "Command blocked due to error: " ++ msg }
      challengeOpened := false
      executed := false }
  | .ok v =>
    if !v.should_challenge then
      { result := executeCommandResult execOutcome
        challengeOpened := false
        executed := true }
    else if v.should_deny then
      { result :=
          { allowed := false
            output := none
            error := some "Security policy violation"
            message := "Shellfirm MCP: Command denied by security policy. Reasons: "
              ++ matchDescriptions v }
        challengeOpened := false
        executed := false }
    else if challengeType = ChallengeType.block then
      { result :=
          { allowed := false
            output := none
            error := some "Command blocked by security policy"
            message := "Shellfirm MCP: Command blocked by security policy. This command cannot be executed. Reasons: "
              ++ matchDescriptions v }
        challengeOpened := false
        executed := false }
    else
      match challenge with
      | .approved =>
        { result := executeCommandResult execOutcome
          challengeOpened := true
          executed := true }
      | .denied err =>
        { result :=
            { allowed := false
              output := none
              error := some "User denial or challenge failure"
              message := "Shellfirm MCP: Command denied by user. "
                ++ err.getD "User chose not to approve the command." }
          challengeOpened := true
          executed := false }
      | .threw msg =>
        { result :=
            { allowed := false
              output := none
              error := some "Challenge system failure"
              message := "Shellfirm MCP: Challenge system error. Command blocked for security. Error: "
                ++ msg }
          challengeOpened := true
          executed := false }

/-- Modelled from the spec: the decision function of the shellfirm_core
validation engine, which is not part of this repository snapshot (only
its WASM glue, shellfirm-wasm.ts, and its callers are).  Spec section
4.5: should_challenge holds when the filtered match set is non-empty,
and should_deny additionally requires some surviving match id to be in
the deny list. -/
def decideVerdict (kept : List CheckMatch) (opts : ValidationOptions) : ValidationResult :=
  let sc := !kept.isEmpty
  { matchList := kept
    should_challenge := sc
    should_deny := sc && kept.any (fun m => opts.deny_pattern_ids.contains m.id) }

/-- Modelled from the spec: the severity allow-list filter of the engine
(spec section 4.4, step 1): an empty allow-list means no filtering,
otherwise matches whose severity is absent from the list are dropped.
Runtime file-existence predicates are irrelevant to the claims settled
here and are left out (they only further shrink the kept set). -/
def severityFilter (opts : ValidationOptions) (raw : List CheckMatch) : List CheckMatch :=
  if opts.allowed_severities.isEmpty then raw
  else raw.filter (fun m => opts.allowed_severities.contains m.severity)

/-- Modelled from the spec: the engine's validation of an already-matched
raw check set (spec section 4.7): filter, then decide.  Quantifying over
every raw match list subsumes every command and catalog. -/
def validate (raw : List CheckMatch) (opts : ValidationOptions) : ValidationResult :=
  decideVerdict (severityFilter opts raw) opts

/-- Modelled from the spec: the engine's validation result for a blank
command.  Spec section 4.2: each part is trimmed and empty parts are
dropped, so a blank command yields no sub-commands, hence no matches and
a clean verdict. -/
def validateBlankCommand : ValidationResult :=
  { matchList := [], should_challenge := false, should_deny := false }

/-- Validation options as constructed by
CommandInterceptor.interceptCommand (command-interceptor.ts lines
34-37): the caller's allowed severities (or [] when absent) and an
always-empty deny list. -/
def interceptorValidationOptions (allowedSeverities : Option (List String)) :
    ValidationOptions :=
  { allowed_severities := allowedSeverities.getD []
    deny_pattern_ids := [] }

/-- Validation options as constructed by
ShellfirmMcpServer.handleValidateCommand (part_007 lines 527-531 and
1053-1057): the configured severities and an always-empty deny list. -/
def handleValidateCommandOptions (allowedSeverities : List String) :
    ValidationOptions :=
  { allowed_severities := allowedSeverities
    deny_pattern_ids := [] }

/-- Body kinds of the challenge server responses. -/
inductive ResponseBody where
  | empty
  | json (s : String)
  | page
  | text (s : String)
deriving DecidableEq, Repr

/-- An HTTP response of the challenge server.  The four header fields
are set unconditionally at the top of the request handler (logger.ts
lines 232-236) before any routing; resolve records whether the request
resolved the pending challenge and with which verdict. -/
structure HttpResponse where
  status : Nat
  corsAllowOrigin : String
  corsAllowMethods : String
  corsAllowHeaders : String
  connection : String
  contentType : Option String
  body : ResponseBody
  resolve : Option Bool
deriving DecidableEq, Repr

/-- Response constructor sharing the headers installed by the
setHeader calls of logger.ts lines 232-236. -/
def mkResponse (status : Nat) (ct : Option String) (body : ResponseBody)
    (resolve : Option Bool) : HttpResponse :=
  { status := status
    corsAllowOrigin := "*"
    corsAllowMethods := "GET, POST, OPTIONS"
    corsAllowHeaders := "Content-Type"
    connection := "close"
    contentType := ct
    body := body
    resolve := resolve }

/-- Outcome of serveChallengeHTML's attempt to produce the page: the
template file exists and renders; the template file is missing
(fs.existsSync false, logger.ts lines 314-319); or reading, compiling or
rendering it throws (the catch of lines 344-348). -/
inductive TemplateOutcome where
  | renders
  | missing
  | renderError
deriving DecidableEq, Repr

/-- BrowserChallenge.serveChallengeHTML (logger.ts lines 310-349): a
missing base template answers 500 with the body Base template not found;
a successful render answers 200 text/html with the page; a thrown error
answers 500 with the body Error loading challenge. -/
def serveChallengeHTML : TemplateOutcome → HttpResponse
  | .renders => mkResponse 200 (some "text/html") ResponseBody.page none
  | .missing => mkResponse 500 none (ResponseBody.text "Base template not found") none
  | .renderError => mkResponse 500 none (ResponseBody.text "Error loading challenge") none

/-- Request handler installed by BrowserChallenge.startChallengeServer
(logger.ts lines 228-277), branch for branch in source order; GET /
delegates to serveChallengeHTML with the template outcome t. -/
def requestHandler (method url : String) (t : TemplateOutcome) : HttpResponse :=
  if method = "OPTIONS" then
    mkResponse 200 none ResponseBody.empty none
  else if url = "/" ∧ method = "GET" then
    serveChallengeHTML t
  else if (url = "/approve" ∨ url = "/approve/") ∧ (method = "POST" ∨ method = "GET") then
    mkResponse 200 (some "application/json")
      (ResponseBody.json "\x7b\"status\":\"approved\"\x7d") (some true)
  else if (url = "/deny" ∨ url = "/deny/") ∧ (method = "POST" ∨ method = "GET") then
    mkResponse 200 (some "application/json")
      (ResponseBody.json "\x7b\"status\":\"denied\"\x7d") (some false)
  else if url = "/favicon.ico" then
    mkResponse 204 none ResponseBody.empty none
  else
    mkResponse 404 none (ResponseBody.text "Not found") none

/-- Result delivered by a challenge session
(browser-challenge ChallengeResult, logger.ts lines 98-102). -/
structure ChallengeResult where
  approved : Bool
  type : String
  error : Option String
deriving DecidableEq, Repr

/-- Events that can reach a running challenge session: an approve hit or
a deny hit on the HTTP surface, or the deadline timer firing. -/
inductive ChallengeEvent where
  | approveHit
  | denyHit
  | timeoutFire
deriving DecidableEq, Repr

/-- The ChallengeResult each event carries, as built at logger.ts lines
249 (approve), 261 (deny) and 155-160 (timeout). -/
def eventResult (kind : String) : ChallengeEvent → ChallengeResult
  | .approveHit => { approved := true, type := kind, error := none }
  | .denyHit => { approved := false, type := kind, error := none }
  | .timeoutFire =>
    { approved := false
      type := kind
      error := some "Challenge timeout - user did not respond in time" }

/-- State of one challenge session while showChallenge awaits the race
of the challenge promise against the timeout promise (logger.ts lines
133-165).  raceResult is the settled value of that race (a promise
settles exactly once, so it is written keep-first); resolverArmed
mirrors this.resolveChallenge being non-null; resolverCalls counts
invocations of the resolver closure; challengeSlot mirrors
this.challengeResult; timeoutCleared and sockets track the cleanup
obligations. -/
structure SessionState where
  raceResult : Option ChallengeResult
  resolverArmed : Bool
  resolverCalls : Nat
  challengeSlot : Option ChallengeResult
  timeoutCleared : Bool
  sockets : List Nat
deriving DecidableEq, Repr

/-- Session state right after startChallengeServer returned and the
challenge promise was installed (logger.ts lines 131-142): no result
yet, resolver armed, timer pending, the given sockets tracked. -/
def initialSession (sockets : List Nat) : SessionState :=
  { raceResult := none
    resolverArmed := true
    resolverCalls := 0
    challengeSlot := none
    timeoutCleared := false
    sockets := sockets }

/-- One event step of the session.  An approve or deny hit (logger.ts
lines 247-270) stores the result in challengeSlot, and, when the
resolver is still armed, unarms it and invokes it, settling the race if
it is not yet settled (resolving an already-settled promise is a no-op,
hence the keep-first getD).  The deadline firing (lines 154-161)
resolves the timeout promise, settling the race only if it is still
open; it does not touch the resolver slot. -/
def sessionStep (kind : String) (s : SessionState) : ChallengeEvent → SessionState
  | .approveHit =>
    if s.resolverArmed then
      { s with
          challengeSlot := some (eventResult kind .approveHit)
          resolverArmed := false
          resolverCalls := s.resolverCalls + 1
          raceResult := some (s.raceResult.getD (eventResult kind .approveHit)) }
    else { s with challengeSlot := some (eventResult kind .approveHit) }
  | .denyHit =>
    if s.resolverArmed then
      { s with
          challengeSlot := some (eventResult kind .denyHit)
          resolverArmed := false
          resolverCalls := s.resolverCalls + 1
          raceResult := some (s.raceResult.getD (eventResult kind .denyHit)) }
    else { s with challengeSlot := some (eventResult kind .denyHit) }
  | .timeoutFire =>
    { s with raceResult := some (s.raceResult.getD (eventResult kind .timeoutFire)) }

/-- A full showChallenge run over the events observed until the race
settles and control returns: fold the steps, then perform the cleanup of
logger.ts lines 167-174 (clearTimeout) and 749-766 (stopChallengeServer
destroying every tracked socket and clearing the set). -/
def runSession (kind : String) (sockets : List Nat)
    (events : List ChallengeEvent) : SessionState :=
  let s := events.foldl (sessionStep kind) (initialSession sockets)
  { s with timeoutCleared := true, sockets := [] }

/-- Invariant tying the resolver slot to its call count: at most one
call ever happens, and none before the slot is disarmed. -/
def resolverInv (s : SessionState) : Prop :=
  s.resolverCalls ≤ 1 ∧ (s.resolverArmed = true → s.resolverCalls = 0)

/-- The challenge-type values the MCP server CLI accepts (part_007 line
710, commander variant, and line 1235, argv variant): the allowed list
is [confirm, math, word]. -/
def cliAllowedChallenges : List String := ["confirm", "math", "word"]

/-- Challenge-type resolution of main (part_007 lines 704-715 commander
variant; lines 1228-1239 argv variant): take the flag value (default
confirm), and when it is not in the allowed list fall back to confirm,
emitting a warning.  Returns the resolved type and whether the fallback
warning fired. -/
def resolveCliChallenge (given : Option String) : String × Bool :=
  let ct := given.getD "confirm"
  if cliAllowedChallenges.contains ct then (ct, false) else ("confirm", true)

/-- The double-quote character (code 34), written by code point. -/
def dquoteChar : Char := Char.ofNat 34

/-- The apostrophe character (code 39), written by code point. -/
def aposChar : Char := Char.ofNat 39

/-- Global single-character replacement on a character list: the
semantics of the JS String.replace calls of escapeHtml, whose regexes
are single literal characters with the g flag. -/
def replaceAllChar (c : Char) (rep : List Char) : List Char → List Char
  | [] => []
  | d :: rest => (if d = c then rep else [d]) ++ replaceAllChar c rep rest

/-- BrowserChallenge.escapeHtml (logger.ts lines 737-744) on the
character list of a string: replace ampersand first, then the angle
brackets, the double quote and the apostrophe, each by its HTML
entity. -/
def escapeHtml (s : List Char) : List Char :=
  replaceAllChar aposChar "&#x27;".data
    (replaceAllChar dquoteChar "&quot;".data
      (replaceAllChar '>' "&gt;".data
        (replaceAllChar '<' "&lt;".data
          (replaceAllChar '&' "&amp;".data s))))

/-- Character-wise escaping map: the entity each escapable character is
replaced by, identity elsewhere. -/
def htmlEntity (c : Char) : List Char :=
  if c = '&' then "&amp;".data
  else if c = '<' then "&lt;".data
  else if c = '>' then "&gt;".data
  else if c = dquoteChar then "&quot;".data
  else if c = aposChar then "&#x27;".data
  else [c]

/-- True when a character is none of the four characters that must never
appear raw in escaped output (the ampersand reappears inside entities,
so it is checked separately through the character-wise map). -/
def notRawSpecial (c : Char) : Bool :=
  !(c == '<' || c == '>' || c == dquoteChar || c == aposChar)

/-- The ordered severity list of
CommandInterceptor.getHighestSeverity (command-interceptor.ts line
135). -/
def severityOrder : List String := ["low", "medium", "high", "critical"]

/-- JS Array.indexOf on a string list: the index of the first
occurrence, or -1 when absent. -/
def jsIndexOf : List String → String → Int
  | [], _ => -1
  | y :: rest, x =>
    if y = x then 0
    else
      let r := jsIndexOf rest x
      if r = -1 then -1 else r + 1

/-- The severity each match contributes in getHighestSeverity
(command-interceptor.ts line 139): match.severity || the medium default;
the JS or-expression also replaces an empty string, which is falsy. -/
def matchSeverity (sev : Option String) : String :=
  match sev with
  | none => "medium"
  | some s => if s = "" then "medium" else s

/-- One iteration of the getHighestSeverity loop (command-interceptor.ts
lines 138-143): replace the accumulator when the candidate's index in
severityOrder is strictly greater. -/
def highestStep (highest : String) (m : Option String) : String :=
  if jsIndexOf severityOrder highest < jsIndexOf severityOrder (matchSeverity m) then
    matchSeverity m
  else highest

/-- CommandInterceptor.getHighestSeverity (command-interceptor.ts lines
134-146): fold over the matches starting from medium. -/
def getHighestSeverity (ms : List (Option String)) : String :=
  ms.foldl highestStep "medium"

/-- escapeHtml lifted back to strings, matching the source signature
string to string. -/
def escapeHtmlStr (s : String) : String := String.mk (escapeHtml s.data)

/-- ASCII lowercasing of one character: the effect of JS toLowerCase on
the ASCII range (the severity strings handled here are ASCII). -/
def asciiLower (c : Char) : Char :=
  if 65 ≤ c.toNat ∧ c.toNat ≤ 90 then Char.ofNat (c.toNat + 32) else c

/-- ASCII uppercasing of one character: the effect of JS toUpperCase on
the ASCII range. -/
def asciiUpper (c : Char) : Char :=
  if 97 ≤ c.toNat ∧ c.toNat ≤ 122 then Char.ofNat (c.toNat - 32) else c

/-- JS String.prototype.toLowerCase restricted to the ASCII range. -/
def jsToLower (s : String) : String := String.mk (s.data.map asciiLower)

/-- JS String.prototype.toUpperCase restricted to the ASCII range. -/
def jsToUpper (s : String) : String := String.mk (s.data.map asciiUpper)

/-- True when a character is neither one of the four raw specials nor an
ampersand: text made only of such characters is unchanged by escaping
and introduces nothing into the surrounding HTML. -/
def entityFree (c : Char) : Bool :=
  notRawSpecial c && !(c == '&')

/-- One item of the matches list built by
BrowserChallenge.getMatchesListHTML (logger.ts lines 462-472): the
lowercased severity (with the medium fallback of the JS or-expression)
is interpolated raw into the class attribute, while the id, the
uppercased severity text and the description pass through escapeHtml.
String.toLower and String.toUpper coincide with the JS methods on the
ASCII range.  The template's literal segments, line breaks included, are
kept verbatim. -/
def matchItemHTML (m : CheckMatch) : String :=
  "<li class=\"match-item sev-" ++ jsToLower (matchSeverity (some m.severity))
    ++ "\">\n        <div class=\"match-header\">\n          <span class=\"match-id\">"
    ++ escapeHtmlStr m.id
    ++ "</span>\n          <span class=\"spacer\"></span>\n          <span class=\"match-sev\">"
    ++ escapeHtmlStr (jsToUpper m.severity)
    ++ "</span>\n        </div>\n        <div class=\"match-desc\">"
    ++ escapeHtmlStr m.description
    ++ "</div>\n      </li>"

/-- BrowserChallenge.getMatchesListHTML (logger.ts lines 452-475): with
no structured matches, a fallback item that escapes the joined patterns;
otherwise the per-match items joined with the empty separator. -/
def getMatchesListHTML (patterns : List String) (ms : List CheckMatch) : String :=
  if ms.isEmpty then
    "<li class=\"match-item sev-medium\">\n        <span class=\"match-id\">patterns</span>\n        <span class=\"match-sev\">MEDIUM</span>\n        <span class=\"match-desc\">"
      ++ escapeHtmlStr (String.intercalate ", " patterns)
      ++ "</span>\n      </li>"
  else String.join (ms.map matchItemHTML)

/-! Theorems. -/

/-- C1: evaluation of the code at the failing input.  With the CLI
default --propagate-env (empty allow-list) and an empty explicit
environment, the child environment still contains the process-environment
variable HOME: handleSecureExecution passes the allow-list array into the
boolean propagateProcessEnv parameter, and an array, even empty, is
truthy in JavaScript, so executeCommand merges the whole process
environment.  The claim says the child receives exactly the explicit
environment. -/
theorem c1_empty_allowlist_leaks_process_env :
    mcpChildEnv [] [("HOME", "/x")] [] = [("HOME", "/x")] ∧
    envLookup (mcpChildEnv [] [("HOME", "/x")] []) "HOME" = some "/x" ∧
    mcpChildEnv ["PATH"] [("HOME", "/x"), ("PATH", "/p")] [] =
      [("HOME", "/x"), ("PATH", "/p")] := by
  refine ⟨rfl, rfl, rfl⟩

/-- C2: evaluation of the code at the failing input.  A blank command is
not rejected by interceptCommand: the engine reports no matches for it
(spec-modelled validateBlankCommand), so the interceptor takes the safe
branch and reaches executeCommand, returning an allowed result — the
command is executed, not denied with an empty-command error. -/
theorem c2_blank_command_is_executed :
    (interceptCommand (Except.ok validateBlankCommand) ChallengeType.confirm
        (ChallengeVerdict.denied none) (ExecOutcome.success "" "")).executed = true ∧
    (interceptCommand (Except.ok validateBlankCommand) ChallengeType.confirm
        (ChallengeVerdict.denied none) (ExecOutcome.success "" "")).result.allowed = true ∧
    (interceptCommand (Except.ok validateBlankCommand) ChallengeType.confirm
        (ChallengeVerdict.denied none) (ExecOutcome.success "" "")).challengeOpened = false := by
  refine ⟨rfl, rfl, rfl⟩

/-- C3: the engine's verdict (spec-modelled decision function) never has
should_deny without should_challenge: a deny verdict requires the kept
match set to be non-empty, which is exactly should_challenge. -/
theorem c3_deny_implies_challenge (raw : List CheckMatch) (opts : ValidationOptions)
    (h : (validate raw opts).should_deny = true) :
    (validate raw opts).should_challenge = true := by
  have h2 : ((!(severityFilter opts raw).isEmpty) &&
      (severityFilter opts raw).any
        (fun m => opts.deny_pattern_ids.contains m.id)) = true := h
  exact (Bool.and_eq_true _ _ ▸ h2).1

/-- Witness for c3_deny_implies_challenge at a concrete denied input. -/
theorem c3_deny_implies_challenge_witness :
    (validate [⟨"git:force_push", "high", "force push"⟩]
        ⟨[], ["git:force_push"]⟩).should_deny = true ∧
    (validate [⟨"git:force_push", "high", "force push"⟩]
        ⟨[], ["git:force_push"]⟩).should_challenge = true :=
  ⟨by decide, c3_deny_implies_challenge _ _ (by decide)⟩

/-- C7: evaluation of the code at the failing input.  The CLI resolves
--challenge block to confirm with the fallback warning, because the
allowed list of main omits block, although the option help text, the
ChallengeType union and the interceptor all support it; the three other
documented values are accepted as themselves. -/
theorem c7_block_flag_falls_back_to_confirm :
    resolveCliChallenge (some "block") = ("confirm", true) ∧
    resolveCliChallenge (some "confirm") = ("confirm", false) ∧
    resolveCliChallenge (some "math") = ("math", false) ∧
    resolveCliChallenge (some "word") = ("word", false) ∧
    resolveCliChallenge none = ("confirm", false) := by
  refine ⟨rfl, rfl, rfl, rfl, rfl⟩

/-- C9: an admitted command that fails at execution still yields an
allowed result with the error surfaced: executeCommand's rejection
branch keeps allowed true and stores the failure message in error; the
resolution branch is allowed as well. -/
theorem c9_exec_failure_keeps_allowed (msg stdout stderr : String) :
    (executeCommandResult (ExecOutcome.failure msg)).allowed = true ∧
    (executeCommandResult (ExecOutcome.failure msg)).error = some msg ∧
    (executeCommandResult (ExecOutcome.failure msg)).message =
      "Command was allowed but execution failed" ∧
    (executeCommandResult (ExecOutcome.success stdout stderr)).allowed = true := by
  refine ⟨rfl, rfl, rfl, rfl⟩

/-- C10: both MCP validation surfaces construct their engine options with
an empty deny_pattern_ids list, and with an empty deny list the
(spec-modelled) engine never sets should_deny: the deny-by-id path is
unreachable through the MCP tools. -/
theorem c10_mcp_deny_list_always_empty (sevs : Option (List String))
    (sevs2 : List String) (raw raw2 : List CheckMatch) :
    (interceptorValidationOptions sevs).deny_pattern_ids = [] ∧
    (handleValidateCommandOptions sevs2).deny_pattern_ids = [] ∧
    (validate raw (interceptorValidationOptions sevs)).should_deny = false ∧
    (validate raw2 (handleValidateCommandOptions sevs2)).should_deny = false := by
  refine ⟨rfl, rfl, ?_, ?_⟩ <;>
  · show (_ && List.any _ (fun m => List.contains [] m.id)) = false
    simp [List.contains]

/-- C6 counterexample: with a risky, non-denied validation result and
challenge type block, the result is denied but neither its error field
nor its message is the string from the claim, so the claim's literal
reason "blocked by policy" is not what the code returns. -/
theorem c6_block_reason_counterexample :
    ((interceptCommand
        (Except.ok ⟨[⟨"fs:recursively_delete", "critical", "delete all"⟩], true, false⟩)
        ChallengeType.block ChallengeVerdict.approved
        (ExecOutcome.success "" "")).result.allowed = false) ∧
    ((interceptCommand
        (Except.ok ⟨[⟨"fs:recursively_delete", "critical", "delete all"⟩], true, false⟩)
        ChallengeType.block ChallengeVerdict.approved
        (ExecOutcome.success "" "")).result.error ≠ some "blocked by policy") ∧
    ((interceptCommand
        (Except.ok ⟨[⟨"fs:recursively_delete", "critical", "delete all"⟩], true, false⟩)
        ChallengeType.block ChallengeVerdict.approved
        (ExecOutcome.success "" "")).result.message ≠ "blocked by policy") := by
  refine ⟨by decide, by decide, by decide⟩

/-- C6 as amended: for every validation result that challenges without
denying, challenge type block yields a denied result with error
"Command blocked by security policy" and the corresponding message, with
no challenge session opened and no execution, whatever the challenge or
exec oracles would have returned. -/
theorem c6_block_denies_without_challenge (v : ValidationResult)
    (ch : ChallengeVerdict) (eo : ExecOutcome)
    (h1 : v.should_challenge = true) (h2 : v.should_deny = false) :
    interceptCommand (Except.ok v) ChallengeType.block ch eo =
      { result :=
          { allowed := false
            output := none
            error := some "Command blocked by security policy"
            message := "Shellfirm MCP: Command blocked by security policy. This command cannot be executed. Reasons: "
              ++ matchDescriptions v }
        challengeOpened := false
        executed := false } := by
  simp [interceptCommand, h1, h2]

/-- Witness for c6_block_denies_without_challenge at a concrete risky
validation result. -/
theorem c6_block_denies_without_challenge_witness :
    (⟨[⟨"fs:recursively_delete", "critical", "delete all"⟩], true, false⟩ :
        ValidationResult).should_challenge = true ∧
    interceptCommand
        (Except.ok ⟨[⟨"fs:recursively_delete", "critical", "delete all"⟩], true, false⟩)
        ChallengeType.block ChallengeVerdict.approved (ExecOutcome.success "" "") =
      { result :=
          { allowed := false
            output := none
            error := some "Command blocked by security policy"
            message := "Shellfirm MCP: Command blocked by security policy. This command cannot be executed. Reasons: "
              ++ matchDescriptions
                  ⟨[⟨"fs:recursively_delete", "critical", "delete all"⟩], true, false⟩ }
        challengeOpened := false
        executed := false } :=
  ⟨rfl, c6_block_denies_without_challenge _ ChallengeVerdict.approved
      (ExecOutcome.success "" "") rfl rfl⟩

/-- C4 counterexample: GET / does not answer 404 (it serves the
challenge page, 200), and POST /favicon.ico answers 204, although the
claim's catch-all demands 404 for every method/path other than the ones
it lists. -/
theorem c4_routing_counterexample :
    (requestHandler "GET" "/" TemplateOutcome.renders).status = 200 ∧
    (requestHandler "GET" "/" TemplateOutcome.renders).status ≠ 404 ∧
    (requestHandler "POST" "/favicon.ico" TemplateOutcome.renders).status = 204 ∧
    (requestHandler "POST" "/favicon.ico" TemplateOutcome.renders).status ≠ 404 := by
  refine ⟨by decide, by decide, by decide, by decide⟩

/-- C4 as amended: every response of the challenge server carries
Connection close and the permissive CORS headers; OPTIONS answers 200 on
any path; GET or POST on /approve (also /approve/) answers 200 with the
approved JSON and resolves the challenge approved; likewise /deny with
the denied JSON resolving denied; GET / answers with serveChallengeHTML,
that is 200 text/html with the page when the template renders, 500 Base
template not found when the template file is missing and 500 Error
loading challenge when rendering throws; /favicon.ico answers 204 for
any non-OPTIONS method; and every other method/path combination answers
404. -/
theorem c4_challenge_server_routing (method url : String) (t : TemplateOutcome) :
    ((requestHandler method url t).connection = "close" ∧
      (requestHandler method url t).corsAllowOrigin = "*" ∧
      (requestHandler method url t).corsAllowMethods = "GET, POST, OPTIONS" ∧
      (requestHandler method url t).corsAllowHeaders = "Content-Type") ∧
    (method = "OPTIONS" →
      requestHandler method url t =
        mkResponse 200 none ResponseBody.empty none) ∧
    ((url = "/approve" ∨ url = "/approve/") → (method = "POST" ∨ method = "GET") →
      requestHandler method url t =
        mkResponse 200 (some "application/json")
          (ResponseBody.json "\x7b\"status\":\"approved\"\x7d") (some true)) ∧
    ((url = "/deny" ∨ url = "/deny/") → (method = "POST" ∨ method = "GET") →
      requestHandler method url t =
        mkResponse 200 (some "application/json")
          (ResponseBody.json "\x7b\"status\":\"denied\"\x7d") (some false)) ∧
    (method = "GET" → url = "/" →
      requestHandler method url t = serveChallengeHTML t) ∧
    (serveChallengeHTML TemplateOutcome.renders =
        mkResponse 200 (some "text/html") ResponseBody.page none ∧
      serveChallengeHTML TemplateOutcome.missing =
        mkResponse 500 none (ResponseBody.text "Base template not found") none ∧
      serveChallengeHTML TemplateOutcome.renderError =
        mkResponse 500 none (ResponseBody.text "Error loading challenge") none) ∧
    (method ≠ "OPTIONS" → url = "/favicon.ico" →
      requestHandler method url t =
        mkResponse 204 none ResponseBody.empty none) ∧
    (method ≠ "OPTIONS" → ¬(url = "/" ∧ method = "GET") →
      ¬((url = "/approve" ∨ url = "/approve/") ∧ (method = "POST" ∨ method = "GET")) →
      ¬((url = "/deny" ∨ url = "/deny/") ∧ (method = "POST" ∨ method = "GET")) →
      url ≠ "/favicon.ico" →
      requestHandler method url t =
        mkResponse 404 none (ResponseBody.text "Not found") none) := by
  refine ⟨?_, ?_, ?_, ?_, ?_, ⟨rfl, rfl, rfl⟩, ?_, ?_⟩
  · unfold requestHandler serveChallengeHTML
    cases t <;> split_ifs <;> exact ⟨rfl, rfl, rfl, rfl⟩
  · intro hm
    subst hm
    unfold requestHandler
    rw [if_pos rfl]
  · intro hu hm
    rcases hu with hu | hu <;> rcases hm with hm | hm <;> subst hu <;> subst hm <;>
      cases t <;> decide
  · intro hu hm
    rcases hu with hu | hu <;> rcases hm with hm | hm <;> subst hu <;> subst hm <;>
      cases t <;> decide
  · intro hm hu
    subst hm
    subst hu
    cases t <;> decide
  · intro hm hu
    subst hu
    unfold requestHandler
    rw [if_neg hm,
      if_neg (fun hc => absurd hc.1 (by decide)),
      if_neg (fun hc => by rcases hc.1 with h | h <;> exact absurd h (by decide)),
      if_neg (fun hc => by rcases hc.1 with h | h <;> exact absurd h (by decide)),
      if_pos rfl]
  · intro h1 h2 h3 h4 h5
    unfold requestHandler
    rw [if_neg h1, if_neg h2, if_neg h3, if_neg h4, if_neg h5]

/-- Witness for c4_challenge_server_routing at concrete requests, one
for each guarded branch, the failing-template GET / included. -/
theorem c4_challenge_server_routing_witness :
    requestHandler "GET" "/approve" TemplateOutcome.renders =
      mkResponse 200 (some "application/json")
        (ResponseBody.json "\x7b\"status\":\"approved\"\x7d") (some true) ∧
    requestHandler "POST" "/deny/" TemplateOutcome.renders =
      mkResponse 200 (some "application/json")
        (ResponseBody.json "\x7b\"status\":\"denied\"\x7d") (some false) ∧
    requestHandler "OPTIONS" "/whatever" TemplateOutcome.missing =
      mkResponse 200 none ResponseBody.empty none ∧
    requestHandler "GET" "/" TemplateOutcome.renders =
      serveChallengeHTML TemplateOutcome.renders ∧
    requestHandler "GET" "/" TemplateOutcome.missing =
      serveChallengeHTML TemplateOutcome.missing ∧
    requestHandler "GET" "/" TemplateOutcome.renderError =
      serveChallengeHTML TemplateOutcome.renderError ∧
    requestHandler "POST" "/favicon.ico" TemplateOutcome.renders =
      mkResponse 204 none ResponseBody.empty none ∧
    requestHandler "PUT" "/nope" TemplateOutcome.renders =
      mkResponse 404 none (ResponseBody.text "Not found") none :=
  ⟨(c4_challenge_server_routing "GET" "/approve" TemplateOutcome.renders).2.2.1
      (Or.inl rfl) (Or.inr rfl),
    (c4_challenge_server_routing "POST" "/deny/" TemplateOutcome.renders).2.2.2.1
      (Or.inr rfl) (Or.inl rfl),
    (c4_challenge_server_routing "OPTIONS" "/whatever" TemplateOutcome.missing).2.1 rfl,
    (c4_challenge_server_routing "GET" "/" TemplateOutcome.renders).2.2.2.2.1 rfl rfl,
    (c4_challenge_server_routing "GET" "/" TemplateOutcome.missing).2.2.2.2.1 rfl rfl,
    (c4_challenge_server_routing "GET" "/" TemplateOutcome.renderError).2.2.2.2.1 rfl rfl,
    (c4_challenge_server_routing "POST" "/favicon.ico" TemplateOutcome.renders).2.2.2.2.2.2.1
      (by decide) rfl,
    (c4_challenge_server_routing "PUT" "/nope" TemplateOutcome.renders).2.2.2.2.2.2.2
      (by decide) (by decide) (by decide) (by decide) (by decide)⟩

/-- Once the race is settled, no later event changes its value: hits
find the promise already resolved (the getD keeps the first result) and
the timer resolution is likewise a no-op. -/
theorem sessionStep_keeps_settled (kind : String) (s : SessionState)
    (e : ChallengeEvent) (r : ChallengeResult) (h : s.raceResult = some r) :
    (sessionStep kind s e).raceResult = some r := by
  cases e <;> unfold sessionStep <;> split_ifs <;> simp [h]

/-- Folding any further events over a settled session keeps the settled
result. -/
theorem foldl_keeps_settled (kind : String) (events : List ChallengeEvent)
    (s : SessionState) (r : ChallengeResult) (h : s.raceResult = some r) :
    (events.foldl (sessionStep kind) s).raceResult = some r := by
  induction events generalizing s with
  | nil => simpa using h
  | cons e es ih =>
    simpa using ih (sessionStep kind s e) (sessionStep_keeps_settled kind s e r h)

/-- The first event settles the race with its own result. -/
theorem sessionStep_first_event (kind : String) (sockets : List Nat)
    (e : ChallengeEvent) :
    (sessionStep kind (initialSession sockets) e).raceResult =
      some (eventResult kind e) := by
  cases e <;> simp [sessionStep, initialSession]

/-- Every event step preserves the resolver invariant. -/
theorem sessionStep_resolverInv (kind : String) (s : SessionState)
    (e : ChallengeEvent) (h : resolverInv s) :
    resolverInv (sessionStep kind s e) := by
  obtain ⟨h1, h2⟩ := h
  cases e <;> unfold sessionStep resolverInv <;>
    first
      | (split_ifs with hA
         · exact ⟨by rw [h2 hA], by intro hc; cases hc⟩
         · exact ⟨h1, h2⟩)
      | exact ⟨h1, h2⟩

/-- Folding events preserves the resolver invariant. -/
theorem foldl_resolverInv (kind : String) (events : List ChallengeEvent)
    (s : SessionState) (h : resolverInv s) :
    resolverInv (events.foldl (sessionStep kind) s) := by
  induction events generalizing s with
  | nil => simpa using h
  | cons e es ih =>
    simpa using ih (sessionStep kind s e) (sessionStep_resolverInv kind s e h)

/-- C5: a challenge session resolves with the first of approve, deny or
timeout — later events never change the settled result; the resolver
closure is invoked at most once across all events; and after resolution
the timeout timer is cleared and every tracked socket is destroyed. -/
theorem c5_session_first_event_wins (kind : String) (sockets : List Nat)
    (e : ChallengeEvent) (es : List ChallengeEvent) :
    (runSession kind sockets (e :: es)).raceResult = some (eventResult kind e) ∧
    (runSession kind sockets (e :: es)).resolverCalls ≤ 1 ∧
    (runSession kind sockets (e :: es)).timeoutCleared = true ∧
    (runSession kind sockets (e :: es)).sockets = [] := by
  unfold runSession
  refine ⟨?_, ?_, rfl, rfl⟩
  · show (List.foldl (sessionStep kind) (initialSession sockets) (e :: es)).raceResult = _
    rw [List.foldl_cons]
    exact foldl_keeps_settled kind es _ _ (sessionStep_first_event kind sockets e)
  · show (List.foldl (sessionStep kind) (initialSession sockets) (e :: es)).resolverCalls ≤ 1
    exact (foldl_resolverInv kind (e :: es) (initialSession sockets)
      ⟨Nat.zero_le 1, fun _ => rfl⟩).1

/-- Single-character replacement distributes over concatenation. -/
theorem replaceAllChar_append (c : Char) (rep l1 l2 : List Char) :
    replaceAllChar c rep (l1 ++ l2) =
      replaceAllChar c rep l1 ++ replaceAllChar c rep l2 := by
  induction l1 with
  | nil => rfl
  | cons d rest ih => simp [replaceAllChar, ih]

/-- Escaping distributes over concatenation. -/
theorem escapeHtml_append (l1 l2 : List Char) :
    escapeHtml (l1 ++ l2) = escapeHtml l1 ++ escapeHtml l2 := by
  unfold escapeHtml
  rw [replaceAllChar_append, replaceAllChar_append, replaceAllChar_append,
    replaceAllChar_append, replaceAllChar_append]

/-- On a single character, the five sequential replacements amount to
the character-wise entity map: the ampersand is replaced first, and no
entity introduced by an earlier stage contains a character targeted by a
later stage. -/
theorem escapeHtml_single (c : Char) : escapeHtml [c] = htmlEntity c := by
  by_cases h1 : c = '&'
  · subst h1; decide
  by_cases h2 : c = '<'
  · subst h2; decide
  by_cases h3 : c = '>'
  · subst h3; decide
  by_cases h4 : c = dquoteChar
  · subst h4; decide
  by_cases h5 : c = aposChar
  · subst h5; decide
  simp [escapeHtml, replaceAllChar, htmlEntity, h1, h2, h3, h4, h5]

/-- escapeHtml is exactly the character-wise entity map. -/
theorem escapeHtml_eq_bind (s : List Char) :
    escapeHtml s = s.flatMap htmlEntity := by
  induction s with
  | nil => rfl
  | cons c rest ih =>
    have hsplit : c :: rest = [c] ++ rest := rfl
    rw [hsplit, escapeHtml_append, escapeHtml_single, ih, List.flatMap_append]
    simp

/-- No entity (and no unescaped ordinary character) contains a raw
special character. -/
theorem htmlEntity_notRawSpecial (c : Char) :
    (htmlEntity c).all notRawSpecial = true := by
  by_cases h1 : c = '&'
  · subst h1; decide
  by_cases h2 : c = '<'
  · subst h2; decide
  by_cases h3 : c = '>'
  · subst h3; decide
  by_cases h4 : c = dquoteChar
  · subst h4; decide
  by_cases h5 : c = aposChar
  · subst h5; decide
  simp [htmlEntity, notRawSpecial, h1, h2, h3, h4, h5]

/-- A predicate holds on all of a bind when it holds on every piece. -/
theorem all_bind_of_all_pieces (s : List Char) (f : Char → List Char)
    (p : Char → Bool) (h : ∀ c, (f c).all p = true) :
    (s.flatMap f).all p = true := by
  induction s with
  | nil => rfl
  | cons c rest ih => simp [List.flatMap_cons, List.all_append, h c, ih]

/-- A non-negative JS indexOf means membership. -/
theorem mem_of_jsIndexOf_nonneg (l : List String) (x : String)
    (h : 0 ≤ jsIndexOf l x) : x ∈ l := by
  induction l with
  | nil => simp [jsIndexOf] at h
  | cons y rest ih =>
    by_cases hy : y = x
    · exact hy ▸ List.mem_cons_self y rest
    · refine List.mem_cons_of_mem y (ih ?_)
      by_cases hr : jsIndexOf rest x = -1
      · exfalso
        rw [jsIndexOf, if_neg hy, if_pos hr] at h
        omega
      · rw [jsIndexOf, if_neg hy, if_neg hr] at h
        omega

/-- Membership means a non-negative JS indexOf. -/
theorem jsIndexOf_nonneg_of_mem (l : List String) (x : String)
    (h : x ∈ l) : 0 ≤ jsIndexOf l x := by
  induction l with
  | nil => cases h
  | cons y rest ih =>
    by_cases hy : y = x
    · rw [jsIndexOf, if_pos hy]
    · have hx : x ∈ rest := by
        rcases List.mem_cons.mp h with h1 | h1
        · exact absurd h1.symm hy
        · exact h1
      have hnn := ih hx
      have hne : jsIndexOf rest x ≠ -1 := by omega
      rw [jsIndexOf, if_neg hy, if_neg hne]
      omega

/-- The getHighestSeverity fold never leaves the four-word severity
list when started inside it: the accumulator is replaced only by a
candidate of strictly larger index, and a string outside the list has
index -1, strictly below any member's index. -/
theorem highest_fold_mem (ms : List (Option String)) (acc : String)
    (h : acc ∈ severityOrder) :
    (ms.foldl highestStep acc) ∈ severityOrder := by
  induction ms generalizing acc with
  | nil => simpa using h
  | cons m rest ih =>
    rw [List.foldl_cons]
    apply ih
    unfold highestStep
    by_cases hlt :
        jsIndexOf severityOrder acc < jsIndexOf severityOrder (matchSeverity m)
    · rw [if_pos hlt]
      apply mem_of_jsIndexOf_nonneg
      have := jsIndexOf_nonneg_of_mem severityOrder acc h
      omega
    · rwa [if_neg hlt]

/-- Escaped text never contains a raw angle bracket, double quote or
apostrophe. -/
theorem escapeHtml_all_notRawSpecial (s : List Char) :
    (escapeHtml s).all notRawSpecial = true := by
  rw [escapeHtml_eq_bind]
  exact all_bind_of_all_pieces s htmlEntity notRawSpecial htmlEntity_notRawSpecial

/-- C8 counterexample: a match whose severity contains angle brackets
puts them raw into the page.  The matches-list item for severity <x>
opens with the class attribute match-item sev-<x>, the severity
interpolated verbatim (getMatchesListHTML lowercases but does not escape
it), whereas escaping would have produced the entities, as the second
conjunct shows. -/
theorem c8_raw_severity_counterexample :
    (matchItemHTML ⟨"rule:x", "<x>", "desc"⟩).data.take 31 =
      "<li class=\"match-item sev-<x>\">".data ∧
    escapeHtmlStr "<x>" = "&lt;x&gt;" := by
  refine ⟨by decide, by decide⟩

/-- C8 as amended: the command (and any other text passed through
escapeHtml, rule ids and descriptions included) is escaped character by
character, each occurrence of ampersand, angle brackets, double quote
and apostrophe becoming its entity, so no raw special survives; one
matches-list item is exactly the fixed template segments around the
escaped id, escaped uppercased severity text and escaped description,
plus the lowercased severity interpolated unescaped into the class
attribute; that unescaped interpolation is entity-free whenever the
severity is one of the four catalog values (the declared type of
Check.severity); the full list is the items joined; and the page-level
severity (RISK_LEVEL / RISK_CLASS) comes from getHighestSeverity, which
always returns one of those four values. -/
theorem c8_match_metadata_escaping (s : List Char) (m : CheckMatch)
    (ms : List (Option String)) (patterns : List String)
    (rest : List CheckMatch) (hs : m.severity ∈ severityOrder) :
    escapeHtml s = s.flatMap htmlEntity ∧
    (escapeHtml s).all notRawSpecial = true ∧
    matchItemHTML m =
      "<li class=\"match-item sev-" ++ jsToLower (matchSeverity (some m.severity))
        ++ "\">\n        <div class=\"match-header\">\n          <span class=\"match-id\">"
        ++ escapeHtmlStr m.id
        ++ "</span>\n          <span class=\"spacer\"></span>\n          <span class=\"match-sev\">"
        ++ escapeHtmlStr (jsToUpper m.severity)
        ++ "</span>\n        </div>\n        <div class=\"match-desc\">"
        ++ escapeHtmlStr m.description
        ++ "</div>\n      </li>" ∧
    (escapeHtmlStr m.id).data.all notRawSpecial = true ∧
    (escapeHtmlStr (jsToUpper m.severity)).data.all notRawSpecial = true ∧
    (escapeHtmlStr m.description).data.all notRawSpecial = true ∧
    (jsToLower (matchSeverity (some m.severity))).data.all entityFree = true ∧
    getMatchesListHTML patterns (m :: rest) =
      String.join ((m :: rest).map matchItemHTML) ∧
    getHighestSeverity ms ∈ severityOrder := by
  refine ⟨escapeHtml_eq_bind s, escapeHtml_all_notRawSpecial s, rfl,
    escapeHtml_all_notRawSpecial m.id.data,
    escapeHtml_all_notRawSpecial (jsToUpper m.severity).data,
    escapeHtml_all_notRawSpecial m.description.data, ?_, rfl,
    highest_fold_mem ms "medium" (by decide)⟩
  have h4 : m.severity = "low" ∨ m.severity = "medium" ∨
      m.severity = "high" ∨ m.severity = "critical" := by
    simpa [severityOrder] using hs
  rcases h4 with h | h | h | h <;> rw [h] <;> decide

/-- Witness for c8_match_metadata_escaping at a concrete catalog-typed
match. -/
theorem c8_match_metadata_escaping_witness :
    (jsToLower (matchSeverity (some ("critical" : String)))).data.all entityFree = true ∧
    (escapeHtmlStr "deletes everything in the path").data.all notRawSpecial = true :=
  ⟨(c8_match_metadata_escaping "<a&b>".data
      ⟨"fs:recursively_delete", "critical", "deletes everything in the path"⟩
      [some "high"] ["p"] [] (by decide)).2.2.2.2.2.2.1,
    (c8_match_metadata_escaping "<a&b>".data
      ⟨"fs:recursively_delete", "critical", "deletes everything in the path"⟩
      [some "high"] ["p"] [] (by decide)).2.2.2.2.2.1⟩

end Shellfirm
